import Mathlib

/-
Verification of the serial/radio bridge in
src/arduino/rover_communication/rover_communication.ino.

The sketch is embedded shallowly: the global mutable state (serial line
buffer, buffer cursor, link mode, telemetry struct) becomes an explicit
state record, and the observable effects (serial output lines, radio
peripheral calls) become an explicit event trace.  The environment
supplies, for each byte that completes a command, the boolean outcome of
the corresponding radio.write call (the peripheral either delivers the
payload or exhausts its retry budget); the code discards that boolean,
and the model records it in the trace so that statements about success
and failure can be made.
-/

namespace RoverComm

/-- Buffer capacity, from the source: const int BUFFER_SIZE = 64. -/
def BUFFER_SIZE : Nat := 64

/-- The C string terminator byte, written by serialBuffer[bufferIndex] = 0. -/
def NUL : Char := Char.ofNat 0

/-- The telemetry struct TelemetryData.  The two float fields are modelled
as exact rationals; tagId (a C int) as an integer and timestamp (uint32_t)
as a natural number.  At the 2-decimal print precision used by the sketch,
the concrete record checked below prints identically whether the fields
are the exact decimals or their IEEE binary32 approximations. -/
structure TelemetryData where
  temperature : ℚ
  humidity : ℚ
  tagId : ℤ
  timestamp : ℕ
deriving DecidableEq

/-- Observable effects of the bridge: a complete serial output line
(a Serial.print sequence ended by Serial.println), the radio mode calls,
a radio.write of a payload together with the environment-chosen outcome
that the code discards, the loop top-level radio.available() poll
(recording the link mode at the moment of the poll), the radio.read of a
telemetry record, and the call of processSerialCommand with its
argument string. -/
inductive Event where
  | serialLine (s : String)
  | stopListening
  | radioWrite (payload : List Char) (ok : Bool)
  | startListening
  | radioAvailCheck (listening : Bool)
  | radioRead (t : TelemetryData)
  | dispatch (command : String)
deriving DecidableEq

/-- Link mode evolution: stopListening and startListening toggle the
single listening flag; no other call touches it. -/
def stepMode (m : Bool) : Event → Bool
  | .stopListening => false
  | .startListening => true
  | _ => m

/-- Link mode after a sequence of events, starting from mode m. -/
def modeAfter (m : Bool) (evs : List Event) : Bool :=
  evs.foldl stepMode m

/-- The global mutable state of the sketch: char serialBuffer[64]
(modelled as a 64-element character list; List.set past the end is a
no-op, matching the out-of-range case that the cursor invariant keeps
unreachable), int bufferIndex, the radio listening mode, and the global
TelemetryData telemetry. -/
structure BridgeState where
  serialBuffer : List Char
  bufferIndex : Nat
  listening : Bool
  telemetry : TelemetryData
deriving DecidableEq

/-- Reading the buffer as a C string (the const char* command argument):
the characters before the first NUL byte. -/
def cString (buf : List Char) : String :=
  ⟨buf.takeWhile (fun c => c != NUL)⟩

/-- processSerialCommand: radio.stopListening(); radio.write(command,
strlen(command) + 1) — the command characters and the terminating NUL,
with the returned boolean discarded; radio.startListening(); then
Serial.print of CMD_SENT: followed by Serial.println of the command,
forming one output line.  Command strings produced by cString contain
no NUL, so the written payload is the string characters plus one NUL. -/
def processSerialCommand (ok : Bool) (command : String) : List Event :=
  [Event.stopListening,
   Event.radioWrite (command.data ++ [NUL]) ok,
   Event.startListening,
   Event.serialLine ("CMD_SENT:" ++ command)]

/-- One iteration of the serial drain: read one character.  A newline
writes the NUL terminator at the cursor, dispatches the buffer contents
to processSerialCommand and resets the cursor; any other character is
appended only while bufferIndex < BUFFER_SIZE - 1, and is silently
dropped otherwise. -/
def serialStep (s : BridgeState) (ok : Bool) (inChar : Char) :
    BridgeState × List Event :=
  if inChar = '\n' then
    let buf := s.serialBuffer.set s.bufferIndex NUL
    let cmd := cString buf
    ({ s with
        serialBuffer := buf
        bufferIndex := 0
        listening := modeAfter s.listening (processSerialCommand ok cmd) },
     Event.dispatch cmd :: processSerialCommand ok cmd)
  else if s.bufferIndex < BUFFER_SIZE - 1 then
    ({ s with
        serialBuffer := s.serialBuffer.set s.bufferIndex inChar
        bufferIndex := s.bufferIndex + 1 }, [])
  else
    (s, [])

/-- The while (Serial.available() > 0) loop: consume every available
serial byte in order.  Each byte is paired with the radio.write outcome
the environment would produce if that byte completed a command. -/
def drainSerial (s : BridgeState) : List (Char × Bool) → BridgeState × List Event
  | [] => (s, [])
  | (c, ok) :: rest =>
    let step := serialStep s ok c
    let next := drainSerial step.1 rest
    (next.1, step.2 ++ next.2)

/-- Integer part of a rational: the C cast (unsigned long)x used by the
Arduino float printing routine, which truncates; on the nonnegative
values the routine applies it to, truncation is the floor. -/
def ratIntPart (q : ℚ) : ℕ :=
  (⌊q⌋).toNat

/-- Arduino Print::printFloat with the default 2 digits, as executed by
Serial.print(float): print a minus sign for negative values, add the
rounding term 0.5 / 10 / 10, print the integer part, a dot, then two
digits obtained by repeatedly multiplying the remainder by ten and
truncating. -/
def printFloat2 (x : ℚ) : String :=
  let sign : String := if x < 0 then "-" else ""
  let n0 : ℚ := if x < 0 then -x else x
  let n : ℚ := n0 + 1 / 200
  let ip : ℕ := ratIntPart n
  let r1 : ℚ := (n - ip) * 10
  let d1 : ℕ := ratIntPart r1
  let r2 : ℚ := (r1 - d1) * 10
  let d2 : ℕ := ratIntPart r2
  sign ++ toString ip ++ "." ++ toString d1 ++ toString d2

/-- The single line produced by sendTelemetryToLaptop: Serial.print of
TELEMETRY, then the two floats at 2-digit precision, the tagId and the
timestamp, comma separated, ended by Serial.println. -/
def telemetryLine (t : TelemetryData) : String :=
  "TELEMETRY," ++ printFloat2 t.temperature ++ "," ++ printFloat2 t.humidity
    ++ "," ++ toString t.tagId ++ "," ++ toString t.timestamp

/-- sendTelemetryToLaptop: emit exactly the one formatted line. -/
def sendTelemetryToLaptop (t : TelemetryData) : List Event :=
  [Event.serialLine (telemetryLine t)]

/-- One execution of loop(): drain all available serial bytes, then poll
radio.available() exactly once; when a telemetry payload is available,
radio.read it into the global record and forward it with
sendTelemetryToLaptop. -/
def loop (s : BridgeState) (serialIn : List (Char × Bool))
    (radioIn : Option TelemetryData) : BridgeState × List Event :=
  let d := drainSerial s serialIn
  match radioIn with
  | some t =>
    ({ d.1 with telemetry := t },
     d.2 ++ Event.radioAvailCheck d.1.listening :: Event.radioRead t ::
       sendTelemetryToLaptop t)
  | none => (d.1, d.2 ++ [Event.radioAvailCheck d.1.listening])

/-- The zero-initialized global TelemetryData telemetry. -/
def initTelemetry : TelemetryData :=
  { temperature := 0, humidity := 0, tagId := 0, timestamp := 0 }

/-- The global state after a successful setup(): zero-initialized buffer
and cursor, radio left in listening mode by the final
radio.startListening(). -/
def initState : BridgeState :=
  { serialBuffer := List.replicate BUFFER_SIZE NUL, bufferIndex := 0,
    listening := true, telemetry := initTelemetry }

/-- setup(): if radio.begin() fails, print the error line and hold in
while (1) — modelled as none, no bridge state is ever produced.  On
success, configure the radio and start listening. -/
def setup (radioBeginOk : Bool) : Option BridgeState × List Event :=
  if radioBeginOk then
    (some initState, [Event.startListening])
  else
    (none, [Event.serialLine "Radio hardware not responding!"])

/-- Repeated executions of loop(), one entry of inputs per iteration. -/
def run (s : BridgeState) :
    List (List (Char × Bool) × Option TelemetryData) → BridgeState × List Event
  | [] => (s, [])
  | (si, ri) :: rest =>
    let step := loop s si ri
    let next := run step.1 rest
    (next.1, step.2 ++ next.2)

/-- The whole sketch: setup() once, then the loop iterations — which
never happen when setup halts in its infinite loop. -/
def bridgeRun (radioBeginOk : Bool)
    (iters : List (List (Char × Bool) × Option TelemetryData)) : List Event :=
  match setup radioBeginOk with
  | (none, evs) => evs
  | (some s0, evs) => evs ++ (run s0 iters).2

/-- The serial output lines contained in a trace. -/
def serialLines (evs : List Event) : List String :=
  evs.filterMap fun e => match e with
    | .serialLine s => some s
    | _ => none

/-- The command strings handed to processSerialCommand in a trace. -/
def dispatches (evs : List Event) : List String :=
  evs.filterMap fun e => match e with
    | .dispatch c => some c
    | _ => none

/-- The radio.write payloads contained in a trace. -/
def radioPayloads (evs : List Event) : List (List Char) :=
  evs.filterMap fun e => match e with
    | .radioWrite p _ => some p
    | _ => none

/-- Whether an event is the loop top-level radio.available() poll. -/
def Event.isAvailCheck : Event → Bool
  | .radioAvailCheck _ => true
  | _ => false

/-- Whether an event is a radio.read of a telemetry record. -/
def Event.isRadioRead : Event → Bool
  | .radioRead _ => true
  | _ => false

/-- Every radio.available() poll in the event was made in listening
mode (vacuously true for other events). -/
def Event.checkListening : Event → Bool
  | .radioAvailCheck b => b
  | _ => true

/-- Whether a serial output line is a CMD_FAILED indicator: its first
ten characters spell CMD_FAILED. -/
def isCmdFailedLine : Event → Bool
  | .serialLine s => s.data.take 10 == "CMD_FAILED".data
  | _ => false

/-- The buffer well-formedness invariant: the cursor never exceeds
BUFFER_SIZE - 1 and the buffer keeps its 64 slots. -/
def BufferInv (s : BridgeState) : Prop :=
  s.bufferIndex ≤ BUFFER_SIZE - 1 ∧ s.serialBuffer.length = BUFFER_SIZE

/-- Pair every character of a string with one radio.write outcome. -/
def toSerialIn (s : String) (ok : Bool) : List (Char × Bool) :=
  s.data.map fun c => (c, ok)

/-- Setting a position and taking one past it appends the new element to
the unchanged prefix. -/
theorem take_set_succ {α : Type} :
    ∀ (l : List α) (i : ℕ) (c : α), i < l.length →
      (l.set i c).take (i + 1) = l.take i ++ [c] := by
  intro l
  induction l with
  | nil => intro i c h; simp at h
  | cons hd tl ih =>
    intro i c h
    cases i with
    | zero => simp
    | succ j =>
      simp only [List.set_cons_succ, List.take_succ_cons, List.cons_append]
      rw [ih j c (by simpa using h)]

/-- A character sequence free of NUL followed by a NUL is exactly what C
string reading recovers. -/
theorem takeWhile_append_nul :
    ∀ (cs rest : List Char), (∀ c ∈ cs, c ≠ NUL) →
      (cs ++ NUL :: rest).takeWhile (fun c => c != NUL) = cs := by
  intro cs rest
  induction cs with
  | nil => intro _; simp
  | cons hd tl ih =>
    intro h
    have hhd : (hd != NUL) = true := by
      simpa using h hd (List.mem_cons_self hd tl)
    simp only [List.cons_append, List.takeWhile_cons, hhd, if_pos]
    rw [ih fun c hc => h c (List.mem_cons_of_mem hd hc)]

/-- The link mode is Listening after any command dispatch: the call
sequence of processSerialCommand ends with startListening. -/
theorem modeAfter_processSerialCommand (m : Bool) (ok : Bool) (cmd : String) :
    modeAfter m (processSerialCommand ok cmd) = true := rfl

/-- One serial byte never turns the listening mode off for good. -/
theorem serialStep_listening (s : BridgeState) (ok : Bool) (c : Char)
    (h : s.listening = true) : (serialStep s ok c).1.listening = true := by
  unfold serialStep
  split
  · rfl
  · split
    · exact h
    · exact h

/-- Draining the serial input preserves the listening mode. -/
theorem drainSerial_listening :
    ∀ (ins : List (Char × Bool)) (s : BridgeState), s.listening = true →
      (drainSerial s ins).1.listening = true := by
  intro ins
  induction ins with
  | nil => intro s h; exact h
  | cons p rest ih =>
    intro s h
    exact ih (serialStep s p.2 p.1).1 (serialStep_listening s p.2 p.1 h)

/-- The events of one serial byte: never a radio availability poll and
never a radio read, and every availability poll they could contain is in
listening mode (vacuously). -/
theorem serialStep_events_tame (s : BridgeState) (ok : Bool) (c : Char) :
    ((serialStep s ok c).2.all fun e =>
      !e.isAvailCheck && !e.isRadioRead && e.checkListening) = true := by
  unfold serialStep
  split
  · rfl
  · split
    · rfl
    · rfl

/-- The events of the whole serial drain: no radio availability poll and
no radio read occurs while serial bytes are being consumed. -/
theorem drainSerial_events_tame :
    ∀ (ins : List (Char × Bool)) (s : BridgeState),
      ((drainSerial s ins).2.all fun e =>
        !e.isAvailCheck && !e.isRadioRead && e.checkListening) = true := by
  intro ins
  induction ins with
  | nil => intro s; rfl
  | cons p rest ih =>
    intro s
    have h1 := serialStep_events_tame s p.2 p.1
    have h2 := ih (serialStep s p.2 p.1).1
    simp only [drainSerial, List.all_append]
    exact by rw [h1, h2]; rfl

/-- One serial byte preserves the buffer invariant: the cursor stays at
most BUFFER_SIZE - 1 and the buffer keeps its fixed size. -/
theorem serialStep_inv (s : BridgeState) (ok : Bool) (c : Char)
    (h : BufferInv s) : BufferInv (serialStep s ok c).1 := by
  obtain ⟨hidx, hlen⟩ := h
  unfold serialStep BufferInv
  split
  · constructor
    · exact Nat.zero_le _
    · simpa using hlen
  · split
    · next hlt =>
      constructor
      · exact hlt
      · simpa using hlen
    · exact ⟨hidx, hlen⟩

/-- The serial drain preserves the buffer invariant. -/
theorem drainSerial_inv :
    ∀ (ins : List (Char × Bool)) (s : BridgeState), BufferInv s →
      BufferInv (drainSerial s ins).1 := by
  intro ins
  induction ins with
  | nil => intro s h; exact h
  | cons p rest ih =>
    intro s h
    exact ih (serialStep s p.2 p.1).1 (serialStep_inv s p.2 p.1 h)

/-- One loop iteration preserves the buffer invariant: the radio branch
only overwrites the telemetry record. -/
theorem loop_inv (s : BridgeState) (si : List (Char × Bool))
    (ri : Option TelemetryData) (h : BufferInv s) : BufferInv (loop s si ri).1 := by
  unfold loop
  have hd := drainSerial_inv si s h
  cases ri with
  | some t => exact hd
  | none => exact hd

/-- Any number of loop iterations preserves the buffer invariant. -/
theorem run_inv :
    ∀ (iters : List (List (Char × Bool) × Option TelemetryData))
      (s : BridgeState), BufferInv s → BufferInv (run s iters).1 := by
  intro iters
  induction iters with
  | nil => intro s h; exact h
  | cons p rest ih =>
    intro s h
    exact ih (loop s p.1 p.2).1 (loop_inv s p.1 p.2 h)

/-- The initial bridge state satisfies the buffer invariant. -/
theorem initState_inv : BufferInv initState := by
  constructor
  · exact Nat.zero_le _
  · simp [initState, BUFFER_SIZE]

/-- One loop iteration keeps the bridge listening and polls the radio in
listening mode only. -/
theorem loop_listening (s : BridgeState) (si : List (Char × Bool))
    (ri : Option TelemetryData) (h : s.listening = true) :
    (loop s si ri).1.listening = true ∧
      ((loop s si ri).2.all Event.checkListening) = true := by
  have hd := drainSerial_listening si s h
  have ht := drainSerial_events_tame si s
  have htame : ((drainSerial s si).2.all Event.checkListening) = true := by
    rw [List.all_eq_true] at ht ⊢
    intro e he
    have := ht e he
    simp only [Bool.and_eq_true] at this
    exact this.2
  unfold loop
  cases ri with
  | some t =>
    refine ⟨hd, ?_⟩
    simp only [List.all_append, List.all_cons, htame, hd]
    rfl
  | none =>
    refine ⟨hd, ?_⟩
    simp only [List.all_append, List.all_cons, htame, hd]
    rfl

/-- Any run of loop iterations keeps the bridge listening and polls the
radio in listening mode only. -/
theorem run_listening :
    ∀ (iters : List (List (Char × Bool) × Option TelemetryData))
      (s : BridgeState), s.listening = true →
      (run s iters).1.listening = true ∧
        ((run s iters).2.all Event.checkListening) = true := by
  intro iters
  induction iters with
  | nil => intro s h; exact ⟨h, rfl⟩
  | cons p rest ih =>
    intro s h
    obtain ⟨h1, h2⟩ := loop_listening s p.1 p.2 h
    obtain ⟨h3, h4⟩ := ih (loop s p.1 p.2).1 h1
    refine ⟨h3, ?_⟩
    simp only [run, List.all_append, h2, h4]
    rfl

/-- Draining a concatenation of byte sequences drains them in order. -/
theorem drainSerial_append (l₁ l₂ : List (Char × Bool)) (s : BridgeState) :
    drainSerial s (l₁ ++ l₂) =
      ((drainSerial (drainSerial s l₁).1 l₂).1,
       (drainSerial s l₁).2 ++ (drainSerial (drainSerial s l₁).1 l₂).2) := by
  induction l₁ generalizing s with
  | nil => simp [drainSerial]
  | cons p rest ih =>
    simp only [List.cons_append, drainSerial, List.append_eq]
    rw [ih (serialStep s p.2 p.1).1]
    simp [List.append_assoc]

/-- Draining newline-free bytes that fit in the remaining capacity
appends them at the cursor, emits nothing, and moves the cursor by
their number. -/
theorem drainSerial_no_newline (ok : Bool) :
    ∀ (cs : List Char) (s : BridgeState), (∀ c ∈ cs, c ≠ '\n') →
      s.bufferIndex + cs.length ≤ BUFFER_SIZE - 1 →
      s.serialBuffer.length = BUFFER_SIZE →
      drainSerial s (cs.map fun c => (c, ok)) =
        ({ s with
            serialBuffer := s.serialBuffer.take s.bufferIndex ++ cs ++
              s.serialBuffer.drop (s.bufferIndex + cs.length)
            bufferIndex := s.bufferIndex + cs.length }, []) := by
  intro cs
  induction cs with
  | nil =>
    intro s h hb hl
    simp [drainSerial, List.take_append_drop]
  | cons c cs ih =>
    intro s h hb hl
    have hc : ¬ (c = '\n') := h c (List.mem_cons_self c cs)
    have hlt : s.bufferIndex < BUFFER_SIZE - 1 := by
      simp only [List.length_cons] at hb
      omega
    have hstep : serialStep s ok c =
        ({ s with
            serialBuffer := s.serialBuffer.set s.bufferIndex c
            bufferIndex := s.bufferIndex + 1 }, []) := by
      unfold serialStep
      rw [if_neg hc, if_pos hlt]
    have hidx : s.bufferIndex < s.serialBuffer.length := by
      rw [hl]
      unfold BUFFER_SIZE at hlt ⊢
      omega
    simp only [List.map_cons, drainSerial, hstep]
    rw [ih _ (fun x hx => h x (List.mem_cons_of_mem c hx))
      (by
        show s.bufferIndex + 1 + cs.length ≤ BUFFER_SIZE - 1
        simp only [List.length_cons] at hb
        omega)
      (by
        show (s.serialBuffer.set s.bufferIndex c).length = BUFFER_SIZE
        simp [hl])]
    simp only [List.length_cons, Prod.mk.injEq, and_true]
    have htake : (s.serialBuffer.set s.bufferIndex c).take (s.bufferIndex + 1) =
        s.serialBuffer.take s.bufferIndex ++ [c] :=
      take_set_succ s.serialBuffer s.bufferIndex c hidx
    have hdrop : (s.serialBuffer.set s.bufferIndex c).drop
        (s.bufferIndex + 1 + cs.length) =
        s.serialBuffer.drop (s.bufferIndex + 1 + cs.length) := by
      rw [List.drop_set, if_pos (by omega)]
    rw [htake, hdrop]
    have harith : s.bufferIndex + (cs.length + 1) = s.bufferIndex + 1 + cs.length := by
      omega
    rw [harith]
    simp [List.append_assoc]

/-- C2, counterexample: the claim quantifies over every line of at most
63 non-terminator bytes, but a line containing the NUL byte is not handed
over verbatim — the buffer is read back as a C string, which stops at the
first NUL.  For the two-byte input NUL, newline, the string handed to
processSerialCommand is the empty string, not the one-character input
line. -/
theorem c2_nul_byte_counterexample :
    dispatches (drainSerial initState [(NUL, true), ('\n', true)]).2 = [""] ∧
      String.mk [NUL] ≠ "" := by
  constructor
  · decide
  · decide

/-- C2 (amended): for every input line of at most 63 non-terminator,
non-NUL bytes followed by the newline terminator, the string handed to
processSerialCommand equals the input bytes with the terminator removed,
and the buffer cursor is reset to zero immediately after delivery. -/
theorem c2_assembled_command_exact (ok : Bool) (cs : List Char) (s : BridgeState)
    (h1 : s.bufferIndex = 0) (h2 : s.serialBuffer.length = BUFFER_SIZE)
    (h3 : cs.length ≤ BUFFER_SIZE - 1) (h4 : '\n' ∉ cs) (h5 : NUL ∉ cs) :
    dispatches (drainSerial s ((cs.map fun c => (c, ok)) ++ [('\n', ok)])).2 =
      [String.mk cs] ∧
    (drainSerial s ((cs.map fun c => (c, ok)) ++ [('\n', ok)])).1.bufferIndex = 0 := by
  have hnn : ∀ c ∈ cs, c ≠ '\n' := by
    intro c hc heq
    exact h4 (heq ▸ hc)
  have hd1 := drainSerial_no_newline ok cs s hnn (by omega) h2
  rw [h1] at hd1
  simp only [List.take_zero, List.nil_append, Nat.zero_add] at hd1
  rw [drainSerial_append, hd1]
  have hlen1 : (cs ++ s.serialBuffer.drop cs.length).length = BUFFER_SIZE := by
    simp only [List.length_append, List.length_drop, h2]
    omega
  have hltlen : cs.length < (cs ++ s.serialBuffer.drop cs.length).length := by
    rw [hlen1]
    unfold BUFFER_SIZE at h3 ⊢
    omega
  have hbuf : (cs ++ s.serialBuffer.drop cs.length).set cs.length NUL =
      cs ++ NUL :: (cs ++ s.serialBuffer.drop cs.length).drop (cs.length + 1) := by
    rw [List.set_eq_take_cons_drop NUL hltlen,
      List.take_left' rfl]
  have hnul : ∀ c ∈ cs, c ≠ NUL := by
    intro c hc heq
    exact h5 (heq ▸ hc)
  have hcmd : cString ((cs ++ s.serialBuffer.drop cs.length).set cs.length NUL) =
      String.mk cs := by
    unfold cString
    rw [hbuf, takeWhile_append_nul cs _ hnul]
  constructor
  · simp only [drainSerial, serialStep, if_pos]
    simp only [hcmd, dispatches, processSerialCommand, List.filterMap_append]
    rfl
  · simp only [drainSerial, serialStep, if_pos]

/-- C2, witness: the seven-character command FORWARD is delivered
verbatim and the cursor returns to zero. -/
theorem c2_assembled_command_exact_witness :
    dispatches (drainSerial initState
      (("FORWARD".data.map fun c => (c, true)) ++ [('\n', true)])).2 =
      [String.mk "FORWARD".data] ∧
    (drainSerial initState
      (("FORWARD".data.map fun c => (c, true)) ++ [('\n', true)])).1.bufferIndex = 0 :=
  c2_assembled_command_exact true "FORWARD".data initState rfl (by decide)
    (by decide) (by decide) (by decide)

/-- C1: with the radio transmission failing (radio.write returning
false, its retry budget exhausted), the bridge still emits the success
acknowledgment CMD_SENT:FORWARD, emits no CMD_FAILED line anywhere in
the iteration, and stays responsive (still listening, cursor reset);
the code discards the result of radio.write, contradicting the claimed
and documented CMD_FAILED protocol. -/
theorem c1_no_cmd_failed_on_failure :
    serialLines (loop initState (toSerialIn "FORWARD\n" false) none).2 =
      ["CMD_SENT:FORWARD"] ∧
    ((loop initState (toSerialIn "FORWARD\n" false) none).2.all fun e =>
      !isCmdFailedLine e) = true ∧
    (loop initState (toSerialIn "FORWARD\n" false) none).1.listening = true ∧
    (loop initState (toSerialIn "FORWARD\n" false) none).1.bufferIndex = 0 := by
  refine ⟨?_, ?_, ?_, ?_⟩ <;> decide

set_option maxRecDepth 8000 in
/-- C3, counterexample: after 63 non-terminator bytes the write cursor
equals 63, so it does not stay at most 62 as the claim states. -/
theorem c3_cursor_reaches_63 :
    (drainSerial initState (List.replicate 63 ('A', true))).1.bufferIndex = 63 ∧
      ¬ (drainSerial initState (List.replicate 63 ('A', true))).1.bufferIndex ≤ 62 := by
  refine ⟨?_, ?_⟩ <;> decide

/-- C3 (amended): over any run the write cursor never exceeds
BUFFER_SIZE - 1 = 63 and the buffer keeps its 64 slots, so no write
occurs past the buffer end (data bytes are stored only under the guard
cursor < 63, the terminator at the cursor which is at most 63); once the
cursor has reached 63 every further non-terminator byte is silently
dropped, leaving the state unchanged, and the next terminator resets the
cursor to zero. -/
theorem c3_cursor_invariant :
    (∀ iters, BufferInv (run initState iters).1) ∧
    (∀ (s : BridgeState) (ok : Bool) (c : Char), s.bufferIndex = BUFFER_SIZE - 1 →
      ¬ (c = '\n') → serialStep s ok c = (s, [])) ∧
    (∀ (s : BridgeState) (ok : Bool), (serialStep s ok '\n').1.bufferIndex = 0) := by
  refine ⟨fun iters => run_inv iters initState initState_inv, ?_, ?_⟩
  · intro s ok c hidx hc
    unfold serialStep
    rw [if_neg hc, if_neg (by omega)]
  · intro s ok
    unfold serialStep
    rw [if_pos rfl]

/-- C3, witness: the invariant after the empty run, the silent drop of
a data byte at a full buffer, and the cursor reset by a terminator. -/
theorem c3_cursor_invariant_witness :
    BufferInv (run initState []).1 ∧
    serialStep ⟨List.replicate 64 NUL, 63, true, initTelemetry⟩ true 'A' =
      (⟨List.replicate 64 NUL, 63, true, initTelemetry⟩, []) ∧
    (serialStep initState true '\n').1.bufferIndex = 0 :=
  ⟨c3_cursor_invariant.1 [],
   c3_cursor_invariant.2.1 ⟨List.replicate 64 NUL, 63, true, initTelemetry⟩ true 'A'
     (by decide) (by decide),
   c3_cursor_invariant.2.2 initState true⟩

/-- C4: setup leaves the controller in Listening mode; every dispatch
performs stopListening, write, startListening in that order and returns
in Listening mode regardless of the starting mode and of the write
outcome; and over any run from the post-setup state, the state stays in
Listening mode and every radio.available() poll happens in Listening
mode — the controller is never left stuck in the transmitting state. -/
theorem c4_duplex_mode_invariant :
    (setup true).1 = some initState ∧ initState.listening = true ∧
    (∀ (ok : Bool) (cmd : String), processSerialCommand ok cmd =
      [Event.stopListening, Event.radioWrite (cmd.data ++ [NUL]) ok,
       Event.startListening, Event.serialLine ("CMD_SENT:" ++ cmd)]) ∧
    (∀ (m ok : Bool) (cmd : String),
      modeAfter m (processSerialCommand ok cmd) = true) ∧
    (∀ iters, (run initState iters).1.listening = true ∧
      ((run initState iters).2.all Event.checkListening) = true) :=
  ⟨rfl, rfl, fun _ _ => rfl, fun _ _ _ => rfl,
   fun iters => run_listening iters initState rfl⟩

/-- C5: when radio.begin() fails, setup prints the single failure line
over serial and halts in an infinite loop: no bridge state is produced
and no loop iteration — no command relay, no telemetry — ever runs,
whatever input would have followed. -/
theorem c5_radio_init_failure_halts :
    (∀ iters, bridgeRun false iters =
      [Event.serialLine "Radio hardware not responding!"]) ∧
    (setup false).1 = none :=
  ⟨fun _ => rfl, rfl⟩

/-- C6: every fully received telemetry record produces exactly one
serial line TELEMETRY,t,h,tagId,timestamp in one loop iteration, and the
record with temperature 23.5, humidity 48.2, tagId 7 and timestamp
100000 produces TELEMETRY,23.50,48.20,7,100000 at the 2-decimal print
precision. -/
theorem c6_telemetry_line_format :
    (∀ (s : BridgeState) (t : TelemetryData),
      serialLines (loop s [] (some t)).2 = [telemetryLine t]) ∧
    telemetryLine
      { temperature := 23.5, humidity := 48.2, tagId := 7, timestamp := 100000 } =
      "TELEMETRY,23.50,48.20,7,100000" := by
  constructor
  · intro s t
    rfl
  · simp only [telemetryLine, printFloat2, ratIntPart]
    norm_num
    norm_num [show Int.toNat 23 = 23 from rfl, show Int.toNat 48 = 48 from rfl]
    norm_num [show Int.toNat 5 = 5 from rfl, show Int.toNat 2 = 2 from rfl]
    rfl

/-- C8: a successful transmission produces exactly one CMD_SENT line
carrying the command, and the scenario input F,O,R,W,A,R,D,newline with
a successful write produces exactly the line CMD_SENT:FORWARD within the
same iteration, with the controller back in Listening mode. -/
theorem c8_cmd_sent_on_success :
    (∀ cmd : String,
      serialLines (processSerialCommand true cmd) = ["CMD_SENT:" ++ cmd]) ∧
    serialLines (loop initState (toSerialIn "FORWARD\n" true) none).2 =
      ["CMD_SENT:FORWARD"] ∧
    (loop initState (toSerialIn "FORWARD\n" true) none).1.listening = true := by
  refine ⟨fun cmd => rfl, ?_, ?_⟩ <;> decide

/-- C9: in every loop iteration the serial drain comes first and
contains no radio poll and no radio read; then the radio is polled for
telemetry exactly once, and at most one record — exactly one when one is
available, none otherwise — is read and forwarded. -/
theorem c9_serial_then_single_radio_poll :
    ∀ (s : BridgeState) (si : List (Char × Bool)) (ri : Option TelemetryData),
      ((drainSerial s si).2.all fun e => !e.isAvailCheck && !e.isRadioRead) = true ∧
      (loop s si ri).2 = (drainSerial s si).2 ++
        Event.radioAvailCheck (drainSerial s si).1.listening ::
          (match ri with
           | some t => Event.radioRead t :: sendTelemetryToLaptop t
           | none => []) ∧
      (loop s si ri).2.countP (fun e => e.isAvailCheck) = 1 ∧
      (loop s si ri).2.countP (fun e => e.isRadioRead) =
        (match ri with | some _ => 1 | none => 0) := by
  intro s si ri
  have htame := drainSerial_events_tame si s
  have hkinds : ((drainSerial s si).2.all fun e =>
      !e.isAvailCheck && !e.isRadioRead) = true := by
    rw [List.all_eq_true] at htame ⊢
    intro e he
    have h := htame e he
    simp only [Bool.and_eq_true] at h ⊢
    exact h.1
  have hzero1 : (drainSerial s si).2.countP (fun e => e.isAvailCheck) = 0 := by
    rw [List.countP_eq_zero]
    intro e he
    have h := (List.all_eq_true.mp hkinds) e he
    simp only [Bool.and_eq_true, Bool.not_eq_true'] at h
    simp [h.1]
  have hzero2 : (drainSerial s si).2.countP (fun e => e.isRadioRead) = 0 := by
    rw [List.countP_eq_zero]
    intro e he
    have h := (List.all_eq_true.mp hkinds) e he
    simp only [Bool.and_eq_true, Bool.not_eq_true'] at h
    simp [h.2]
  cases ri with
  | some t =>
    have hsplit : (loop s si (some t)).2 = (drainSerial s si).2 ++
        [Event.radioAvailCheck (drainSerial s si).1.listening,
         Event.radioRead t, Event.serialLine (telemetryLine t)] := rfl
    refine ⟨hkinds, rfl, ?_, ?_⟩
    · rw [hsplit, List.countP_append, hzero1]
      rfl
    · rw [hsplit, List.countP_append, hzero2]
      rfl
  | none =>
    have hsplit : (loop s si none).2 = (drainSerial s si).2 ++
        [Event.radioAvailCheck (drainSerial s si).1.listening] := rfl
    refine ⟨hkinds, rfl, ?_, ?_⟩
    · rw [hsplit, List.countP_append, hzero1]
      rfl
    · rw [hsplit, List.countP_append, hzero2]
      rfl

/-- C10: every dispatched command of length n causes one radio.write of
exactly n + 1 bytes, the command characters followed by the NUL
terminator; a lone newline still triggers a one-byte write of just the
NUL and a serial acknowledgment line. -/
theorem c10_payload_is_command_plus_nul :
    (∀ (ok : Bool) (cmd : String),
      radioPayloads (processSerialCommand ok cmd) = [cmd.data ++ [NUL]] ∧
      (cmd.data ++ [NUL]).length = cmd.length + 1) ∧
    radioPayloads (loop initState [('\n', true)] none).2 = [[NUL]] ∧
    serialLines (loop initState [('\n', true)] none).2 = ["CMD_SENT:"] := by
  refine ⟨fun ok cmd => ⟨rfl, ?_⟩, ?_, ?_⟩
  · cases cmd with
    | mk data => simp
  · decide
  · decide

end RoverComm
